import Mathlib

/-!
Verification of the receipt-certification core (hashing.py and
comparing_receipts.py): canonicalization, SHA-256 hashing, ledger-memo
verification, the rule-based fraud scorer, and the certified-reference
comparator.  Receipt amounts (Python floats holding decimal literals) are
modelled as rationals; Python text as `List Char`.
-/

set_option maxRecDepth 10000

namespace Receipts

/-! ## Kernel-computable rational arithmetic

`Rat.add` and friends are `@[irreducible]`, so the embedding computes with
`mkRat` and the `num`/`den` projections directly; the bridge lemmas below
identify these operations with the standard ones on `ℚ`. -/

/-- Addition on `ℚ` via `mkRat` (kernel-reducible). -/
def qAdd (a b : ℚ) : ℚ := mkRat (a.num * b.den + b.num * a.den) (a.den * b.den)

/-- Subtraction on `ℚ` via `mkRat` (kernel-reducible). -/
def qSub (a b : ℚ) : ℚ := mkRat (a.num * b.den - b.num * a.den) (a.den * b.den)

/-- Multiplication on `ℚ` via `mkRat` (kernel-reducible). -/
def qMul (a b : ℚ) : ℚ := mkRat (a.num * b.num) (a.den * b.den)

/-- Absolute value on `ℚ` via `mkRat` (kernel-reducible). -/
def qAbs (a : ℚ) : ℚ := mkRat |a.num| a.den

/-- Boolean `≤` on `ℚ` by cross-multiplication (kernel-reducible). -/
def qLeB (a b : ℚ) : Bool := decide (a.num * b.den ≤ b.num * a.den)

theorem qAdd_eq (a b : ℚ) : qAdd a b = a + b := by
  have ha : (a.den : ℤ) ≠ 0 := Int.ofNat_ne_zero.mpr a.den_nz
  have hb : (b.den : ℤ) ≠ 0 := Int.ofNat_ne_zero.mpr b.den_nz
  rw [qAdd, Rat.mkRat_eq_divInt, Int.ofNat_mul,
    ← Rat.divInt_add_divInt _ _ ha hb, Rat.num_divInt_den, Rat.num_divInt_den]

theorem qSub_eq (a b : ℚ) : qSub a b = a - b := by
  have ha : (a.den : ℤ) ≠ 0 := Int.ofNat_ne_zero.mpr a.den_nz
  have hb : (b.den : ℤ) ≠ 0 := Int.ofNat_ne_zero.mpr b.den_nz
  rw [qSub, Rat.mkRat_eq_divInt, Int.ofNat_mul,
    ← Rat.divInt_sub_divInt _ _ ha hb, Rat.num_divInt_den, Rat.num_divInt_den]

theorem qMul_eq (a b : ℚ) : qMul a b = a * b := by
  conv_rhs => rw [← Rat.num_divInt_den a, ← Rat.num_divInt_den b]
  rw [qMul, Rat.mkRat_eq_divInt, Int.ofNat_mul, Rat.divInt_mul_divInt']

theorem qAbs_eq (a : ℚ) : qAbs a = |a| := by
  rw [qAbs, Rat.mkRat_eq_divInt]
  rcases le_or_lt 0 a with h | h
  · have hn : 0 ≤ a.num := Rat.num_nonneg.mpr h
    rw [abs_of_nonneg hn, Rat.num_divInt_den, abs_of_nonneg h]
  · have hn : a.num < 0 := Rat.num_neg.mpr h
    rw [abs_of_neg hn, ← Rat.neg_divInt, Rat.num_divInt_den, abs_of_neg h]

theorem qLeB_iff (a b : ℚ) : qLeB a b = true ↔ a ≤ b := by
  rw [qLeB, decide_eq_true_iff]
  have ha : (0 : ℤ) < a.den := Int.ofNat_pos.mpr a.pos
  have hb : (0 : ℤ) < b.den := Int.ofNat_pos.mpr b.pos
  rw [← Rat.divInt_le_divInt ha hb, Rat.num_divInt_den, Rat.num_divInt_den]

/-! ## Python text helpers

Python `str` values are modelled as `List Char`.  Case mapping and
whitespace handling model the ASCII fragment (receipt fields in scope are
ASCII). -/

/-- Python strings, modelled as lists of characters. -/
abbrev Str := List Char

/-- The whitespace characters removed by Python `str.strip()` (ASCII fragment). -/
def isPySpace (c : Char) : Bool :=
  c = ' ' || c = '\t' || c = '\n' || c = '\x0d' || c = '\x0b' || c = '\x0c'

/-- Python `str.strip()`: drop whitespace from both ends. -/
def pyStrip (s : Str) : Str :=
  ((s.dropWhile isPySpace).reverse.dropWhile isPySpace).reverse

/-- Python `str.lower()` (ASCII fragment). -/
def pyLower (s : Str) : Str := s.map Char.toLower

/-- Python `str.upper()` (ASCII fragment). -/
def pyUpper (s : Str) : Str := s.map Char.toUpper

/-- Python `str.split(sep)` for a single-character separator: splits at every
occurrence, keeping empty segments, and never returns an empty list. -/
def splitOnChar (c : Char) : Str → List Str
  | [] => [[]]
  | x :: xs =>
    match splitOnChar c xs with
    | [] => if x = c then [[], []] else [[x]]
    | h :: t => if x = c then [] :: h :: t else (x :: h) :: t

theorem splitOnChar_ne_nil (c : Char) (s : Str) : splitOnChar c s ≠ [] := by
  cases s with
  | nil => simp [splitOnChar]
  | cons x xs =>
    simp only [splitOnChar]
    rcases splitOnChar c xs with _ | ⟨h, t⟩
    · by_cases hx : x = c <;> simp [hx]
    · by_cases hx : x = c <;> simp [hx]

/-- A separator-free string does not split. -/
theorem splitOnChar_of_not_mem (c : Char) (s : Str) (h : c ∉ s) :
    splitOnChar c s = [s] := by
  induction s with
  | nil => rfl
  | cons x xs ih =>
    have hx : x ≠ c := fun hxc => h (hxc ▸ List.mem_cons_self x xs)
    have hxs : c ∉ xs := fun hm => h (List.mem_cons_of_mem x hm)
    simp only [splitOnChar, ih hxs]
    simp [hx]

/-- A string containing the separator splits into at least two segments. -/
theorem splitOnChar_length_ge_two (c : Char) (s : Str) (h : c ∈ s) :
    2 ≤ (splitOnChar c s).length := by
  induction s with
  | nil => cases h
  | cons x xs ih =>
    simp only [splitOnChar]
    rcases hsp : splitOnChar c xs with _ | ⟨hd, t⟩
    · exact absurd hsp (splitOnChar_ne_nil c xs)
    · by_cases hx : x = c
      · simp [hx]
      · have hm : c ∈ xs := by
          rcases List.mem_cons.mp h with h1 | h1
          · exact absurd h1.symm hx
          · exact h1
        have := ih hm
        rw [hsp] at this
        simpa [hx] using this

/-- The last segment of splitting `p ++ c :: h` is `h`, when `h` is
separator-free (Python `memo.split(c)[-1]`). -/
theorem splitOnChar_getLastD (c : Char) (p h : Str) (hh : c ∉ h) :
    (splitOnChar c (p ++ c :: h)).getLastD [] = h := by
  induction p with
  | nil =>
    simp only [List.nil_append, splitOnChar, splitOnChar_of_not_mem c h hh]
    simp
  | cons x p ih =>
    have hmem : c ∈ (p ++ c :: h) := List.mem_append_right _ (List.mem_cons_self c h)
    simp only [List.cons_append, splitOnChar]
    rcases hsp : splitOnChar c (p ++ c :: h) with _ | ⟨hd, t⟩
    · exact absurd hsp (splitOnChar_ne_nil c _)
    · have hlen : 2 ≤ (hd :: t).length := hsp ▸ splitOnChar_length_ge_two c _ hmem
      rcases t with _ | ⟨t0, ts⟩
      · simp at hlen
      · rw [hsp] at ih
        by_cases hx : x = c
        · simpa [hx] using ih
        · simpa [hx] using ih

/-! ## Python values and `float()` coercion -/

/-- A JSON-like field value as handed to the Python code: a number (Python
floats restricted to their finite, exactly-representable decimal fragment,
modelled as `ℚ`), a string, or `None`. -/
inductive Value
  | num (q : ℚ)
  | str (s : Str)
  | null
deriving DecidableEq

/-- Digit character to value. -/
def digitVal (c : Char) : ℕ := c.toNat - 48

/-- Decimal digit string to `ℕ`. -/
def digitsToNat (ds : Str) : ℕ := ds.foldl (fun a c => 10 * a + digitVal c) 0

/-- Split a leading run of decimal digits. -/
def takeDigits (s : Str) : Str × Str := (s.takeWhile Char.isDigit, s.dropWhile Char.isDigit)

/-- Mantissa `m` with `fracDigits` digits after the point, times `10 ^ e`. -/
def qScale (m : ℤ) (fracDigits : ℕ) (e : ℤ) : ℚ :=
  match e with
  | .ofNat k => mkRat (m * 10 ^ k) (10 ^ fracDigits)
  | .negSucc k => mkRat m (10 ^ fracDigits * 10 ^ (k + 1))

/-- Parse an optional exponent suffix `[eE][+-]?digits` (empty means `10^0`). -/
def parseExp : Str → Option ℤ
  | [] => some 0
  | c :: rest =>
    if c = 'e' ∨ c = 'E' then
      let sr : ℤ × Str :=
        match rest with
        | '+' :: r => (1, r)
        | '-' :: r => (-1, r)
        | r => (1, r)
      let (ds, rest2) := takeDigits sr.2
      if ds ≠ [] ∧ rest2 = [] then some (sr.1 * (digitsToNat ds : ℤ)) else none
    else none

/-- Parse a stripped float literal: `[+-]?(digits[.digits?]|.digits)([eE][+-]?digits)?`. -/
def parseFloatBody (s : Str) : Option ℚ :=
  let sr : ℤ × Str :=
    match s with
    | '+' :: r => (1, r)
    | '-' :: r => (-1, r)
    | r => (1, r)
  let (ip, r1) := takeDigits sr.2
  match r1 with
  | '.' :: r2 =>
    let (fp, r3) := takeDigits r2
    if ip = [] ∧ fp = [] then none
    else (parseExp r3).map (fun e => qScale (sr.1 * (digitsToNat (ip ++ fp) : ℤ)) fp.length e)
  | r2 =>
    if ip = [] then none
    else (parseExp r2).map (fun e => qScale (sr.1 * (digitsToNat ip : ℤ)) 0 e)

/-- Python `float(value)`: numbers pass through, strings are parsed as float
literals (after stripping whitespace), `None` raises `TypeError` (`none`
here).  The model covers the finite-decimal fragment: non-finite literals
(`inf`/`nan`) and underscore digit separators are outside the modelled input
domain. -/
def pyFloat : Value → Option ℚ
  | .num q => some q
  | .str s => parseFloatBody (pyStrip s)
  | .null => none

/-! ## Two-decimal formatting (Python `"{:.2f}".format`) -/

/-- Round `n / d` to the nearest integer, ties to even (the rounding used by
Python float formatting on exact halves that survive the rational model). -/
def roundHalfEven (n d : ℕ) : ℕ :=
  let t := n / d
  let r := n % d
  if 2 * r < d then t
  else if 2 * r > d then t + 1
  else if t % 2 = 0 then t else t + 1

/-- Decimal digits of a natural number. -/
def natDigits (n : ℕ) : Str := (Nat.repr n).data

/-- Single decimal digit character. -/
def digitCh (n : ℕ) : Char := Char.ofNat (48 + n % 10)

/-- Python `"{:.2f}".format(x)`: sign, integer part, exactly two fractional
digits. -/
def formatTwoDec (q : ℚ) : Str :=
  let c := roundHalfEven (q.num.natAbs * 100) q.den
  (if q.num < 0 then ['-'] else []) ++
    natDigits (c / 100) ++ '.' :: digitCh (c / 10 % 10) :: [digitCh (c % 10)]

/-! ## Hex digits and JSON serialization -/

/-- Lowercase hex digit characters. -/
def hexDigit (n : ℕ) : Char := "0123456789abcdef".data.getD n 'f'

theorem hexDigit_ne_colon (n : ℕ) : hexDigit n ≠ ':' := by
  by_cases h : n < 16
  · have hall : ∀ m : Fin 16, "0123456789abcdef".data.getD m.val 'f' ≠ ':' := by decide
    exact hall ⟨n, h⟩
  · rw [hexDigit, List.getD_eq_default]
    · decide
    · simp only [not_lt] at h
      calc ("0123456789abcdef".data).length = 16 := by decide
        _ ≤ n := h

/-- Four lowercase hex digits (for `\uXXXX` escapes). -/
def hex4 (n : ℕ) : Str :=
  [hexDigit (n / 4096 % 16), hexDigit (n / 256 % 16), hexDigit (n / 16 % 16), hexDigit (n % 16)]

/-- Escape one character as Python `json.dumps` does with the default
`ensure_ascii=True`: the named short escapes, `\uXXXX` for other control or
non-ASCII characters, surrogate pairs beyond the BMP. -/
def jsonEscapeChar (c : Char) : Str :=
  if c = '"' then ['\\', '"']
  else if c = '\\' then ['\\', '\\']
  else if c = '\n' then ['\\', 'n']
  else if c = '\r' then ['\\', 'r']
  else if c = '\t' then ['\\', 't']
  else if c = '\x08' then ['\\', 'b']
  else if c = '\x0c' then ['\\', 'f']
  else if c.toNat < 32 then '\\' :: 'u' :: hex4 c.toNat
  else if c.toNat < 127 then [c]
  else if c.toNat < 65536 then '\\' :: 'u' :: hex4 c.toNat
  else
    let v := c.toNat - 65536
    '\\' :: 'u' :: hex4 (55296 + v / 1024) ++ '\\' :: 'u' :: hex4 (56320 + v % 1024)

/-- JSON string escaping, character by character. -/
def jsonEscape (s : Str) : Str := s.flatMap jsonEscapeChar

/-- A JSON string literal: quotes around the escaped body. -/
def jsonQuote (s : Str) : Str := '"' :: jsonEscape s ++ ['"']

/-- The canonical JSON serialization produced by
`json.dumps(canonical, sort_keys=True, separators=(',', ':'))`: six
string-valued fields in sorted key order with tight separators. -/
def canonicalString (currency date merchant subtotal tax total : Str) : Str :=
  '{' :: jsonQuote "currency".data ++ ':' :: jsonQuote currency
    ++ ',' :: jsonQuote "date".data ++ ':' :: jsonQuote date
    ++ ',' :: jsonQuote "merchant".data ++ ':' :: jsonQuote merchant
    ++ ',' :: jsonQuote "subtotal".data ++ ':' :: jsonQuote subtotal
    ++ ',' :: jsonQuote "tax".data ++ ':' :: jsonQuote tax
    ++ ',' :: jsonQuote "total".data ++ ':' :: jsonQuote total
    ++ ['}']

/-- UTF-8 encoding of one character (Python `str.encode('utf-8')`). -/
def utf8EncodeChar (c : Char) : List ℕ :=
  let n := c.toNat
  if n < 128 then [n]
  else if n < 2048 then [192 + n / 64, 128 + n % 64]
  else if n < 65536 then [224 + n / 4096, 128 + n / 64 % 64, 128 + n % 64]
  else [240 + n / 262144, 128 + n / 4096 % 64, 128 + n / 64 % 64, 128 + n % 64]

/-- UTF-8 encoding of a string as a byte list. -/
def utf8Encode (s : Str) : List ℕ := s.flatMap utf8EncodeChar

/-! ## SHA-256 (`hashlib.sha256`), over byte lists with 32-bit words as `ℕ` -/

/-- Truncate to 32 bits. -/
def w32 (n : ℕ) : ℕ := n % 4294967296

/-- 32-bit modular addition. -/
def add32 (a b : ℕ) : ℕ := (a + b) % 4294967296

/-- 32-bit right rotation. -/
def rotr32 (n x : ℕ) : ℕ := w32 ((x >>> n) ||| (x <<< (32 - n)))

/-- 32-bit bitwise complement. -/
def wnot (x : ℕ) : ℕ := 4294967295 ^^^ x

/-- SHA-256 Σ₀. -/
def bigS0 (x : ℕ) : ℕ := rotr32 2 x ^^^ rotr32 13 x ^^^ rotr32 22 x

/-- SHA-256 Σ₁. -/
def bigS1 (x : ℕ) : ℕ := rotr32 6 x ^^^ rotr32 11 x ^^^ rotr32 25 x

/-- SHA-256 σ₀. -/
def smallS0 (x : ℕ) : ℕ := rotr32 7 x ^^^ rotr32 18 x ^^^ (x >>> 3)

/-- SHA-256 σ₁. -/
def smallS1 (x : ℕ) : ℕ := rotr32 17 x ^^^ rotr32 19 x ^^^ (x >>> 10)

/-- SHA-256 Ch. -/
def chF (x y z : ℕ) : ℕ := (x &&& y) ^^^ (wnot x &&& z)

/-- SHA-256 Maj. -/
def majF (x y z : ℕ) : ℕ := (x &&& y) ^^^ (x &&& z) ^^^ (y &&& z)

/-- SHA-256 round constants. -/
def K256 : List ℕ :=
  [1116352408, 1899447441, 3049323471, 3921009573, 961987163,
   1508970993, 2453635748, 2870763221, 3624381080, 310598401,
   607225278, 1426881987, 1925078388, 2162078206, 2614888103,
   3248222580, 3835390401, 4022224774, 264347078, 604807628,
   770255983, 1249150122, 1555081692, 1996064986, 2554220882,
   2821834349, 2952996808, 3210313671, 3336571891, 3584528711,
   113926993, 338241895, 666307205, 773529912, 1294757372,
   1396182291, 1695183700, 1986661051, 2177026350, 2456956037,
   2730485921, 2820302411, 3259730800, 3345764771, 3516065817,
   3600352804, 4094571909, 275423344, 430227734, 506948616,
   659060556, 883997877, 958139571, 1322822218, 1537002063,
   1747873779, 1955562222, 2024104815, 2227730452, 2361852424,
   2428436474, 2756734187, 3204031479, 3329325298]

/-- SHA-256 initial hash value. -/
def H256 : List ℕ :=
  [1779033703, 3144134277, 1013904242, 2773480762,
   1359893119, 2600822924, 528734635, 1541459225]

/-- Big-endian 8-byte encoding of the message bit length. -/
def beBytes8 (n : ℕ) : List ℕ :=
  [n / 2 ^ 56 % 256, n / 2 ^ 48 % 256, n / 2 ^ 40 % 256, n / 2 ^ 32 % 256,
   n / 2 ^ 24 % 256, n / 2 ^ 16 % 256, n / 2 ^ 8 % 256, n % 256]

/-- SHA-256 padding: `0x80`, zeros to 56 mod 64, then the 64-bit bit length. -/
def padMsg (msg : List ℕ) : List ℕ :=
  msg ++ 128 :: List.replicate ((64 + 55 - msg.length % 64) % 64) 0 ++ beBytes8 (msg.length * 8)

/-- Big-endian grouping of bytes into 32-bit words. -/
def bytesToWords : List ℕ → List ℕ
  | b0 :: b1 :: b2 :: b3 :: rest => (((b0 * 256 + b1) * 256 + b2) * 256 + b3) :: bytesToWords rest
  | _ => []

/-- The next word of the message schedule, from the trailing 16 words. -/
def nextW (w : List ℕ) : ℕ :=
  let t := w.length
  add32 (add32 (smallS1 (w.getD (t - 2) 0)) (w.getD (t - 7) 0))
    (add32 (smallS0 (w.getD (t - 15) 0)) (w.getD (t - 16) 0))

/-- Extend the message schedule by `k` more words. -/
def extendW : ℕ → List ℕ → List ℕ
  | 0, w => w
  | k + 1, w => extendW k (w ++ [nextW w])

/-- The eight SHA-256 working variables. -/
structure Hash8 where
  a : ℕ
  b : ℕ
  c : ℕ
  d : ℕ
  e : ℕ
  f : ℕ
  g : ℕ
  h : ℕ

/-- One SHA-256 compression round. -/
def shaRound (st : Hash8) (kw : ℕ × ℕ) : Hash8 :=
  let t1 := add32 st.h (add32 (bigS1 st.e) (add32 (chF st.e st.f st.g) (add32 kw.1 kw.2)))
  let t2 := add32 (bigS0 st.a) (majF st.a st.b st.c)
  ⟨add32 t1 t2, st.a, st.b, st.c, add32 st.d t1, st.e, st.f, st.g⟩

/-- Compress one 64-byte block into the running hash value. -/
def processBlock (hs : List ℕ) (block : List ℕ) : List ℕ :=
  let ws := extendW 48 (bytesToWords block)
  let st0 : Hash8 :=
    ⟨hs.getD 0 0, hs.getD 1 0, hs.getD 2 0, hs.getD 3 0,
     hs.getD 4 0, hs.getD 5 0, hs.getD 6 0, hs.getD 7 0⟩
  let st := (K256.zip ws).foldl shaRound st0
  [add32 (hs.getD 0 0) st.a, add32 (hs.getD 1 0) st.b, add32 (hs.getD 2 0) st.c,
   add32 (hs.getD 3 0) st.d, add32 (hs.getD 4 0) st.e, add32 (hs.getD 5 0) st.f,
   add32 (hs.getD 6 0) st.g, add32 (hs.getD 7 0) st.h]

/-- Split a byte list into 64-byte blocks (fuelled structural recursion). -/
def chunks64 : ℕ → List ℕ → List (List ℕ)
  | 0, _ => []
  | _ + 1, [] => []
  | fuel + 1, l => l.take 64 :: chunks64 fuel (l.drop 64)

/-- SHA-256 digest of a byte list, as 32 bytes. -/
def sha256bytes (msg : List ℕ) : List ℕ :=
  let padded := padMsg msg
  let final := (chunks64 padded.length padded).foldl processBlock H256
  final.flatMap (fun wd => [wd / 2 ^ 24 % 256, wd / 2 ^ 16 % 256, wd / 2 ^ 8 % 256, wd % 256])

/-- Two lowercase hex characters of a byte. -/
def byteToHex (b : ℕ) : Str := [hexDigit (b / 16 % 16), hexDigit (b % 16)]

/-- `hashlib.sha256(bytes).hexdigest()`: 64 lowercase hex characters. -/
def sha256hex (msg : List ℕ) : Str := (sha256bytes msg).flatMap byteToHex

/-- Hex digests never contain the memo delimiter `':'`. -/
theorem sha256hex_colon_not_mem (msg : List ℕ) : ':' ∉ sha256hex msg := by
  intro hmem
  rw [sha256hex, List.mem_flatMap] at hmem
  obtain ⟨b, _, hb⟩ := hmem
  simp only [byteToHex, List.mem_cons, List.not_mem_nil, or_false] at hb
  rcases hb with h1 | h1 <;> exact hexDigit_ne_colon _ h1.symm

/-! ## Receipt records -/

/-- One line item: name, integer quantity, unit price. -/
structure LineItem where
  item : Str
  quantity : ℤ
  price : ℚ
deriving DecidableEq

/-- A raw receipt record as handed to the core (a JSON-like dict).  `none`
models an absent key.  The text fields carry text (per the repository data
shapes); the three amount fields may carry any `Value`, since malformed
amounts are part of the modelled input space. -/
structure ReceiptRecord where
  merchant : Option Str := none
  date : Option Str := none
  time : Option Str := none
  currency : Option Str := none
  subtotal : Option Value := none
  tax : Option Value := none
  total : Option Value := none
  line_items : List LineItem := []
deriving DecidableEq

/-! ## `hashing.py`: `compute_canonical_hash` and `verify_receipt` -/

/-- `compute_canonical_hash(data)`: normalize the six fields (merchant
lowercased/stripped, date stripped with default `"null"`, currency
uppercased/stripped with default `"CAD"`, amounts coerced via `float` with
default `0` and formatted to two decimals), serialize with sorted keys and
tight separators, and SHA-256 the UTF-8 bytes.  A `float()` failure
(`ValueError`/`TypeError`) is caught and surfaced as `None` (`none`). -/
def compute_canonical_hash (data : ReceiptRecord) : Option Str :=
  match pyFloat (data.subtotal.getD (Value.num 0)),
        pyFloat (data.tax.getD (Value.num 0)),
        pyFloat (data.total.getD (Value.num 0)) with
  | some sub, some tax, some tot =>
    let canonical_string := canonicalString
      (pyStrip (pyUpper (data.currency.getD "CAD".data)))
      (pyStrip (data.date.getD "null".data))
      (pyStrip (pyLower (data.merchant.getD [])))
      (formatTwoDec sub) (formatTwoDec tax) (formatTwoDec tot)
    some (sha256hex (utf8Encode canonical_string))
  | _, _, _ => none

/-- The message accompanying a malformed memo. -/
def invalidMemoMsg : Str := "Invalid Solana memo format".data

/-- The message accompanying a successful verification. -/
def verifiedMsg : Str := "VERIFIED: Receipt matches the blockchain record.".data

/-- The message accompanying a failed hash comparison. -/
def notVerifiedMsg : Str := "NOT VERIFIED: Receipt data does not match the original certification.".data

/-- `verify_receipt(current_scan_json, solana_memo_string)`: recompute the
canonical hash, reject memos without a `':'` delimiter, extract the claimed
hash as the last `':'`-separated segment, and compare for exact equality
(a `None` current hash never equals the extracted string). -/
def verify_receipt (current_scan_json : ReceiptRecord) (solana_memo_string : Str) :
    Bool × Str :=
  let current_hash := compute_canonical_hash current_scan_json
  if ':' ∉ solana_memo_string then (false, invalidMemoMsg)
  else
    let expected_hash := (splitOnChar ':' solana_memo_string).getLastD []
    if current_hash = some expected_hash then (true, verifiedMsg)
    else (false, notVerifiedMsg)

/-! ## Calendar dates and `datetime.strptime(s, "%Y-%m-%d")` -/

/-- A calendar date. -/
structure Date where
  year : ℕ
  month : ℕ
  day : ℕ
deriving DecidableEq

/-- Strict lexicographic comparison of dates (`receipt_date.date() > today.date()`). -/
def dateAfter (a b : Date) : Bool :=
  a.year > b.year ∨ (a.year = b.year ∧ (a.month > b.month ∨ (a.month = b.month ∧ a.day > b.day)))

/-- Gregorian leap year. -/
def isLeap (y : ℕ) : Bool := y % 4 = 0 && (y % 100 ≠ 0 || y % 400 = 0)

/-- Days in a month. -/
def daysInMonth (y m : ℕ) : ℕ :=
  if m = 2 then (if isLeap y then 29 else 28)
  else if m = 4 ∨ m = 6 ∨ m = 9 ∨ m = 11 then 30
  else 31

/-- Parse a one- or two-digit field in `1..hi` the way CPython's `_strptime`
regex alternation does: a two-digit candidate wins when it is in range,
otherwise a single non-zero digit is taken. -/
def parseField (hi : ℕ) : Str → Option (ℕ × Str)
  | a :: b :: r =>
    if a.isDigit ∧ b.isDigit ∧ 1 ≤ 10 * digitVal a + digitVal b ∧ 10 * digitVal a + digitVal b ≤ hi
    then some (10 * digitVal a + digitVal b, r)
    else if a.isDigit ∧ 1 ≤ digitVal a ∧ digitVal a ≤ 9 then some (digitVal a, b :: r)
    else none
  | [a] => if a.isDigit ∧ 1 ≤ digitVal a ∧ digitVal a ≤ 9 then some (digitVal a, []) else none
  | [] => none

/-- `datetime.strptime(s, "%Y-%m-%d")`: exactly four year digits, month and
day fields per the `_strptime` regex, the whole string consumed, then the
`datetime` constructor's calendar validation (year ≥ 1, day within the
month). -/
def pyStrptimeYmd (s : Str) : Option Date :=
  match s with
  | c1 :: c2 :: c3 :: c4 :: '-' :: rest =>
    if c1.isDigit ∧ c2.isDigit ∧ c3.isDigit ∧ c4.isDigit then
      let y := digitsToNat [c1, c2, c3, c4]
      match parseField 12 rest with
      | some (m, '-' :: rest2) =>
        match parseField 31 rest2 with
        | some (d, []) =>
          if 1 ≤ y ∧ d ≤ daysInMonth y m then some ⟨y, m, d⟩ else none
        | _ => none
      | _ => none
    else none
  | _ => none

/-! ## `comparing_receipts.py`: `basic_validation`

The source reads `datetime.today()` inside the function; the ambient clock
read is made explicit here as the `today` argument (the embedding of the
global clock state).  Reason and anomaly messages are modelled as
constructors carrying the interpolated data of the corresponding f-strings. -/

/-- The `reasons` entries of `basic_validation`, one constructor per source
f-string/literal. -/
inductive Reason
  /-- `f"Receipt date {receipt_data.get('date')} is invalid (future date)"` -/
  | futureDate (dateStr : Option Str)
  /-- `"Invalid date format"` -/
  | invalidDateFormat
  /-- `f"Math error: {receipt_data.get('subtotal')} + {receipt_data.get('tax')} ≠ {actual_total}"` -/
  | mathError (subtotal tax : Option Value) (actualTotal : ℚ)
  /-- `"Arithmetic checks passed"` -/
  | arithmeticPassed
  /-- `f"Line items sum to {line_total:.2f} but subtotal is {receipt_data.get('subtotal')}"` -/
  | lineItemsMismatch (lineTotal : ℚ) (subtotal : Option Value)
deriving DecidableEq

/-- The `anomalies` entries of `basic_validation`. -/
inductive Anomaly
  /-- `f"Receipt date {receipt_data.get('date')} is in the future"` -/
  | futureDate (dateStr : Option Str)
  /-- `f"Invalid date format: {receipt_data.get('date')}"` -/
  | invalidDateFormat (dateStr : Option Str)
  /-- `f"Missing fields: {', '.join(missing)}"` -/
  | missingFields (names : List Str)
deriving DecidableEq

/-- The dict returned by `basic_validation` / the Gemini path. -/
structure FraudAssessment where
  fraud_score : ℤ
  verdict : Str
  reasons : List Reason
  arithmetic_valid : Bool
  line_items_valid : Bool
  anomalies_found : List Anomaly
deriving DecidableEq

/-- The contribution of one rule: appended reasons and anomalies, the score
increment, and the rule's validity flag. -/
structure RuleOutcome where
  reasons : List Reason := []
  anomalies : List Anomaly := []
  score : ℤ := 0
  ok : Bool := true
deriving DecidableEq

/-- Date rule: parse failure → +20 with an anomaly; a parsed date strictly
after `today` → +40 with an anomaly; otherwise nothing. -/
def dateCheck (dateField : Option Str) (today : Date) : RuleOutcome :=
  match pyStrptimeYmd (dateField.getD []) with
  | some d =>
    if dateAfter d today then
      { reasons := [Reason.futureDate dateField],
        anomalies := [Anomaly.futureDate dateField], score := 40 }
    else {}
  | none =>
    { reasons := [Reason.invalidDateFormat],
      anomalies := [Anomaly.invalidDateFormat dateField], score := 20 }

/-- `receipt_data.get(f, 0)` for an amount field, as a number: an absent key
defaults to `0`; a numeric value passes through; a string or `None` value
makes the later `+` raise `TypeError` (`none`, collapsing the whole call). -/
def asNum : Option Value → Option ℚ
  | none => some 0
  | some (Value.num q) => some q
  | some (Value.str _) => none
  | some Value.null => none

/-- The `0.02` tolerance. -/
def tol : ℚ := mkRat 2 100

/-- Arithmetic rule: `|subtotal + tax - total| ≤ 0.02`; invalid → +50 with a
math-error reason, valid → the passed reason. -/
def arithCheck (subField taxField : Option Value) (sub tax tot : ℚ) : RuleOutcome :=
  let arithmetic_valid := qLeB (qAbs (qSub (qAdd sub tax) tot)) tol
  if arithmetic_valid then { reasons := [Reason.arithmeticPassed] }
  else { reasons := [Reason.mathError subField taxField tot], score := 50, ok := false }

/-- `sum(item['quantity'] * item['price'] for item in line_items)`. -/
def lineTotal (items : List LineItem) : ℚ :=
  items.foldl (fun acc it => qAdd acc (qMul (mkRat it.quantity 1) it.price)) (mkRat 0 1)

/-- Line-item rule: skipped for an empty list (valid vacuously); otherwise the
item sum must match `subtotal` within `0.02`, a mismatch adding +30 and a
reason. -/
def lineCheck (subField : Option Value) (items : List LineItem) (sub : ℚ) : RuleOutcome :=
  if items.isEmpty then {}
  else
    let lt := lineTotal items
    let valid := qLeB (qAbs (qSub lt sub)) tol
    if valid then {}
    else { reasons := [Reason.lineItemsMismatch lt subField], score := 30, ok := false }

/-- Python truthiness of an optional text field (`not receipt_data.get(f)`). -/
def strTruthy : Option Str → Bool
  | none => false
  | some s => !s.isEmpty

/-- Python truthiness of an optional amount field: `0` and `0.0` are falsy. -/
def valTruthy : Option Value → Bool
  | none => false
  | some (Value.num q) => q.num ≠ 0
  | some (Value.str s) => !s.isEmpty
  | some Value.null => false

/-- `[f for f in required_fields if not receipt_data.get(f)]`, in source
order. -/
def missingFields (r : ReceiptRecord) : List Str :=
  (if strTruthy r.merchant then [] else ["merchant".data]) ++
  (if strTruthy r.date then [] else ["date".data]) ++
  (if strTruthy r.currency then [] else ["currency".data]) ++
  (if valTruthy r.subtotal then [] else ["subtotal".data]) ++
  (if valTruthy r.tax then [] else ["tax".data]) ++
  (if valTruthy r.total then [] else ["total".data])

/-- Required-field rule: one anomaly listing every missing field and +20,
only when at least one is missing. -/
def missCheck (r : ReceiptRecord) : RuleOutcome :=
  let missing := missingFields r
  if missing.isEmpty then {}
  else { anomalies := [Anomaly.missingFields missing], score := 20 }

/-- Verdict mapping on the final score. -/
def verdictOf (score : ℤ) : Str :=
  if score ≤ 30 then "Likely Legit".data
  else if score ≤ 70 then "Suspicious".data
  else "Highly Suspicious".data

/-- `basic_validation(receipt_data)`, with the ambient `datetime.today()`
read passed explicitly as `today`.  Returns `none` when the Python code
would raise `TypeError` on `subtotal`/`tax`/`total` values that are neither
absent nor numeric. -/
def basic_validation (r : ReceiptRecord) (today : Date) : Option FraudAssessment :=
  match asNum r.subtotal, asNum r.tax, asNum r.total with
  | some sub, some tax, some tot =>
    let dc := dateCheck r.date today
    let ac := arithCheck r.subtotal r.tax sub tax tot
    let lc := lineCheck r.subtotal r.line_items sub
    let mc := missCheck r
    let fraud_score := dc.score + ac.score + lc.score + mc.score
    some
      { fraud_score := fraud_score
        verdict := verdictOf fraud_score
        reasons := dc.reasons ++ ac.reasons ++ lc.reasons ++ mc.reasons
        arithmetic_valid := ac.ok
        line_items_valid := lc.ok
        anomalies_found := dc.anomalies ++ mc.anomalies }
  | _, _, _ => none

/-! ## `comparing_receipts.py`: `compare_to_certified` -/

/-- A `differences` entry, one constructor per source literal/f-string. -/
inductive Diff
  /-- `"Receipt ID not found in certified database"` -/
  | notFound
  /-- `"✓ All fields match certified receipt"` -/
  | allMatch
  /-- `f"{field}: user has ..., certified has ..."`, carrying the field name
  and the two raw values interpolated into the message. -/
  | fieldMismatch (field : Str) (userVal certVal : Option Value)
deriving DecidableEq

/-- The `key_fields` of a record as name/value pairs, in comparison order
(text fields appear as string values, as in the source dicts). -/
def keyFieldVals (r : ReceiptRecord) : List (Str × Option Value) :=
  [("merchant".data, r.merchant.map Value.str),
   ("date".data, r.date.map Value.str),
   ("time".data, r.time.map Value.str),
   ("currency".data, r.currency.map Value.str),
   ("subtotal".data, r.subtotal),
   ("tax".data, r.tax),
   ("total".data, r.total)]

/-- The static `SAMPLE_RECEIPTS` certified-reference table. -/
def SAMPLE_RECEIPTS : List (Str × ReceiptRecord) :=
  [("receipt_001".data,
    { merchant := some "Walmart".data, date := some "2026-02-07".data,
      time := some "14:30:22".data, currency := some "USD".data,
      subtotal := some (Value.num (mkRat 4599 100)),
      tax := some (Value.num (mkRat 368 100)),
      total := some (Value.num (mkRat 4967 100)),
      line_items :=
        [⟨"Milk 2%".data, 2, mkRat 499 100⟩,
         ⟨"Bread".data, 1, mkRat 349 100⟩,
         ⟨"Eggs Dozen".data, 3, mkRat 1197 100⟩] }),
   ("receipt_002".data,
    { merchant := some "Target".data, date := some "2026-02-06".data,
      time := some "10:15:00".data, currency := some "USD".data,
      subtotal := some (Value.num (mkRat 8950 100)),
      tax := some (Value.num (mkRat 716 100)),
      total := some (Value.num (mkRat 9666 100)),
      line_items :=
        [⟨"Coffee Maker".data, 1, mkRat 4999 100⟩,
         ⟨"Coffee Beans".data, 2, mkRat 1998 100⟩,
         ⟨"Filters".data, 1, mkRat 899 100⟩] })]

/-- Association-list lookup (`receipt_id in SAMPLE_RECEIPTS` / indexing). -/
def dictFind (k : Str) : List (Str × ReceiptRecord) → Option ReceiptRecord
  | [] => none
  | p :: rest => if p.1 = k then some p.2 else dictFind k rest

/-- `compare_to_certified(user_input, receipt_id)`: unknown identifiers yield
`(False, [not-found message])` as an ordinary result; otherwise the seven
key fields are compared pairwise by exact equality, with a sentinel success
message when nothing differs. -/
def compare_to_certified (user_input : ReceiptRecord) (receipt_id : Str) :
    Bool × List Diff :=
  match dictFind receipt_id SAMPLE_RECEIPTS with
  | none => (false, [Diff.notFound])
  | some certified =>
    let differences :=
      ((keyFieldVals user_input).zip (keyFieldVals certified)).filterMap
        (fun p => if p.1.2 ≠ p.2.2 then some (Diff.fieldMismatch p.1.1 p.1.2 p.2.2) else none)
    let isMatch := differences.isEmpty
    if isMatch then (true, [Diff.allMatch]) else (false, differences)

/-! ## Helper lemmas about the hash path -/

/-- A successfully computed canonical hash never contains `':'`. -/
theorem compute_canonical_hash_colon_free (r : ReceiptRecord) (hsh : Str)
    (hh : compute_canonical_hash r = some hsh) : ':' ∉ hsh := by
  unfold compute_canonical_hash at hh
  cases h1 : pyFloat (r.subtotal.getD (Value.num 0)) <;> rw [h1] at hh <;>
    cases h2 : pyFloat (r.tax.getD (Value.num 0)) <;> rw [h2] at hh <;>
      cases h3 : pyFloat (r.total.getD (Value.num 0)) <;> rw [h3] at hh <;>
        simp only [Option.some.injEq, reduceCtorEq] at hh
  rw [← hh]
  exact sha256hex_colon_not_mem _

/-- Verifying a record against any memo `p ++ ':' ++ h` succeeds when `h` is
the record's own canonical hash. -/
theorem verify_append_hash (r : ReceiptRecord) (p hsh : Str)
    (hh : compute_canonical_hash r = some hsh) :
    verify_receipt r (p ++ ':' :: hsh) = (true, verifiedMsg) := by
  have hcf : ':' ∉ hsh := compute_canonical_hash_colon_free r hsh hh
  have hmem : ':' ∈ p ++ ':' :: hsh :=
    List.mem_append_right _ (List.mem_cons_self ':' hsh)
  simp only [verify_receipt]
  rw [if_neg (not_not_intro hmem), splitOnChar_getLastD ':' p hsh hcf, hh,
    if_pos rfl]

/-! ## Claims -/

/-- C1.  Round trip of the hash path: for every receipt record whose
canonical hashing succeeds with hash `h`, verifying that same record against
the memo `"DEEPFAKERECEIPT:" ++ h` built from its own canonical hash returns
verified = true together with the VERIFIED message. -/
theorem C1_roundtrip_verified (r : ReceiptRecord) (hsh : Str)
    (hh : compute_canonical_hash r = some hsh) :
    verify_receipt r ("DEEPFAKERECEIPT:".data ++ hsh) = (true, verifiedMsg) := by
  have hpre : "DEEPFAKERECEIPT:".data = "DEEPFAKERECEIPT".data ++ [':'] := by decide
  rw [hpre, List.append_assoc]
  exact verify_append_hash r "DEEPFAKERECEIPT".data hsh hh

/-- The Starbucks sample receipt of the source's own test block. -/
def sampleRecord : ReceiptRecord :=
  { merchant := some "Starbucks".data, date := some "2026-02-07".data,
    currency := some "CAD".data,
    subtotal := some (Value.num (mkRat 515 100)),
    tax := some (Value.num (mkRat 60 100)),
    total := some (Value.num (mkRat 575 100)) }

/-- The canonical hash of `sampleRecord`. -/
def sampleHash : Str :=
  "c4a36a3456de33dadd49dd6d9695cf021073258e82c10d9385a31453f956ce73".data

theorem C1_roundtrip_verified_witness :
    verify_receipt sampleRecord ("DEEPFAKERECEIPT:".data ++ sampleHash) =
      (true, verifiedMsg) :=
  C1_roundtrip_verified sampleRecord sampleHash (by decide)

/-- C2.  Canonicalization failure is explicit: when subtotal, tax, or total
is present but `float()` cannot interpret it as a number, the hash function
surfaces the failure to the caller (`none`) rather than substituting a
default and producing a hash. -/
theorem C2_normalization_error_surfaced (r : ReceiptRecord) (v : Value)
    (hpresent : r.subtotal = some v ∨ r.tax = some v ∨ r.total = some v)
    (hbad : pyFloat v = none) :
    compute_canonical_hash r = none := by
  unfold compute_canonical_hash
  rcases hpresent with hp | hp | hp <;> rw [hp] <;>
    simp only [Option.getD_some, hbad] <;>
      cases pyFloat (r.subtotal.getD (Value.num 0)) <;>
        cases pyFloat (r.tax.getD (Value.num 0)) <;>
          cases pyFloat (r.total.getD (Value.num 0)) <;> rfl

/-- A record whose subtotal is the non-numeric string `"abc"`. -/
def badAmountRecord : ReceiptRecord :=
  { merchant := some "Starbucks".data, date := some "2026-02-07".data,
    currency := some "CAD".data,
    subtotal := some (Value.str "abc".data),
    tax := some (Value.num (mkRat 60 100)),
    total := some (Value.num (mkRat 575 100)) }

theorem C2_normalization_error_surfaced_witness :
    pyFloat (Value.str "abc".data) = none ∧
      compute_canonical_hash badAmountRecord = none :=
  ⟨by decide,
   C2_normalization_error_surfaced badAmountRecord (Value.str "abc".data)
     (Or.inl rfl) (by decide)⟩

/-- C6.  Malformed memo handling: for every record and every memo without a
`':'` delimiter, verification returns verified = false with the
invalid-memo message (the `MalformedMemoError` outcome), not a hash
comparison verdict. -/
theorem C6_malformed_memo (r : ReceiptRecord) (memo : Str) (hm : ':' ∉ memo) :
    verify_receipt r memo = (false, invalidMemoMsg) := by
  simp only [verify_receipt]
  rw [if_pos hm]

theorem C6_malformed_memo_witness :
    verify_receipt {} "INVALID_FORMAT_NO_COLON".data = (false, invalidMemoMsg) :=
  C6_malformed_memo {} "INVALID_FORMAT_NO_COLON".data (by decide)

/-- C7.  Certified-comparator not-found handling: for every user record and
every identifier absent from the certified table, the comparator returns the
ordinary result `(false, [not-found message])`. -/
theorem C7_certified_not_found (u : ReceiptRecord) (rid : Str)
    (habs : dictFind rid SAMPLE_RECEIPTS = none) :
    compare_to_certified u rid = (false, [Diff.notFound]) := by
  unfold compare_to_certified
  rw [habs]

theorem C7_certified_not_found_witness :
    compare_to_certified {} "receipt_999".data = (false, [Diff.notFound]) :=
  C7_certified_not_found {} "receipt_999".data (by decide)

/-- C10.  The memo prefix is never validated: for every record whose
canonical hash is `h` and every prefix text `p` (empty or arbitrary, tag or
not), verifying against `p ++ ':' ++ h` returns verified = true — only the
segment after the last `':'` influences the outcome. -/
theorem C10_prefix_ignored (r : ReceiptRecord) (hsh p : Str)
    (hh : compute_canonical_hash r = some hsh) :
    verify_receipt r (p ++ ':' :: hsh) = (true, verifiedMsg) :=
  verify_append_hash r p hsh hh

theorem C10_prefix_ignored_witness :
    verify_receipt sampleRecord ([] ++ ':' :: sampleHash) = (true, verifiedMsg) :=
  C10_prefix_ignored sampleRecord sampleHash [] (by decide)

/-! ## Helper lemmas about the rule-based scorer -/

theorem tol_eq : tol = 2 / 100 := by
  rw [tol, Rat.mkRat_eq_div]
  norm_num

/-- `basic_validation` on numerically well-typed amounts, decomposed into its
four rule contributions. -/
theorem basic_validation_eq (r : ReceiptRecord) (today : Date) (sub tax tot : ℚ)
    (hs : asNum r.subtotal = some sub) (ht : asNum r.tax = some tax)
    (hT : asNum r.total = some tot) :
    basic_validation r today = some
      { fraud_score := (dateCheck r.date today).score +
          (arithCheck r.subtotal r.tax sub tax tot).score +
          (lineCheck r.subtotal r.line_items sub).score + (missCheck r).score
        verdict := verdictOf ((dateCheck r.date today).score +
          (arithCheck r.subtotal r.tax sub tax tot).score +
          (lineCheck r.subtotal r.line_items sub).score + (missCheck r).score)
        reasons := (dateCheck r.date today).reasons ++
          (arithCheck r.subtotal r.tax sub tax tot).reasons ++
          (lineCheck r.subtotal r.line_items sub).reasons ++ (missCheck r).reasons
        arithmetic_valid := (arithCheck r.subtotal r.tax sub tax tot).ok
        line_items_valid := (lineCheck r.subtotal r.line_items sub).ok
        anomalies_found := (dateCheck r.date today).anomalies ++ (missCheck r).anomalies } := by
  unfold basic_validation
  rw [hs, ht, hT]

theorem arithCheck_valid (sf tf : Option Value) (sub tax tot : ℚ)
    (h : |sub + tax - tot| ≤ 2 / 100) :
    arithCheck sf tf sub tax tot = { reasons := [Reason.arithmeticPassed] } := by
  have hb : qLeB (qAbs (qSub (qAdd sub tax) tot)) tol = true := by
    rw [qAdd_eq, qSub_eq, qAbs_eq, tol_eq, qLeB_iff]
    exact h
  unfold arithCheck
  rw [hb]
  rfl

theorem arithCheck_invalid (sf tf : Option Value) (sub tax tot : ℚ)
    (h : ¬(|sub + tax - tot| ≤ 2 / 100)) :
    arithCheck sf tf sub tax tot =
      { reasons := [Reason.mathError sf tf tot], score := 50, ok := false } := by
  have hb : qLeB (qAbs (qSub (qAdd sub tax) tot)) tol = false := by
    rw [← Bool.not_eq_true, qAdd_eq, qSub_eq, qAbs_eq, tol_eq, qLeB_iff]
    exact h
  unfold arithCheck
  rw [hb]
  rfl

theorem dateCheck_score_cases (d : Option Str) (t : Date) :
    (dateCheck d t).score = 0 ∨ (dateCheck d t).score = 20 ∨ (dateCheck d t).score = 40 := by
  unfold dateCheck
  cases hp : pyStrptimeYmd (d.getD []) with
  | none => simp
  | some dd => cases hda : dateAfter dd t <;> simp [hda]

theorem arithCheck_score_cases (sf tf : Option Value) (sub tax tot : ℚ) :
    (arithCheck sf tf sub tax tot).score = 0 ∨ (arithCheck sf tf sub tax tot).score = 50 := by
  unfold arithCheck
  cases hb : qLeB (qAbs (qSub (qAdd sub tax) tot)) tol <;> simp [hb]

theorem lineCheck_score_cases (sf : Option Value) (items : List LineItem) (sub : ℚ) :
    (lineCheck sf items sub).score = 0 ∨ (lineCheck sf items sub).score = 30 := by
  unfold lineCheck
  cases he : items.isEmpty
  · cases hb : qLeB (qAbs (qSub (lineTotal items) sub)) tol <;> simp [he, hb]
  · simp [he]

theorem missCheck_score_cases (r : ReceiptRecord) :
    (missCheck r).score = 0 ∨ (missCheck r).score = 20 := by
  unfold missCheck
  cases he : (missingFields r).isEmpty <;> simp [he]

/-! ## Claims about the rule-based scorer -/

/-- A record whose date rule outcome is the only thing that distinguishes two
runs under different ambient clock values. -/
def clockRecord : ReceiptRecord :=
  { merchant := some "Walmart".data, date := some "2026-02-07".data,
    currency := some "USD".data,
    subtotal := some (Value.num (mkRat 500 100)),
    tax := some (Value.num (mkRat 100 100)),
    total := some (Value.num (mkRat 600 100)) }

/-- C3 (code bug).  The source's `basic_validation` reads `datetime.today()`
internally instead of taking the reference date as a parameter; making that
ambient read explicit as an input, the very same record is scored
differently under two clock values (2026-02-06 vs 2026-02-08 around the
receipt date 2026-02-07), so the function is not a pure function of the
record and an explicitly passed reference date as the claim requires. -/
theorem C3_ambient_clock_dependence :
    basic_validation clockRecord ⟨2026, 2, 6⟩ ≠ basic_validation clockRecord ⟨2026, 2, 8⟩ := by
  decide

/-- C4.  Arithmetic check: `arithmetic_valid` is true exactly when
`|subtotal + tax − total| ≤ 0.02`; when false the score includes the +50
contribution and the math-error reason is appended; when true the
arithmetic-passed reason is appended (and no +50). -/
theorem C4_arithmetic_check (r : ReceiptRecord) (today : Date) (a : FraudAssessment)
    (sub tax tot : ℚ)
    (hs : asNum r.subtotal = some sub) (ht : asNum r.tax = some tax)
    (hT : asNum r.total = some tot)
    (ha : basic_validation r today = some a) :
    (a.arithmetic_valid = true ↔ |sub + tax - tot| ≤ 2 / 100) ∧
    (a.arithmetic_valid = false →
      Reason.mathError r.subtotal r.tax tot ∈ a.reasons ∧
      a.fraud_score = (dateCheck r.date today).score + 50 +
        (lineCheck r.subtotal r.line_items sub).score + (missCheck r).score) ∧
    (a.arithmetic_valid = true →
      Reason.arithmeticPassed ∈ a.reasons ∧
      a.fraud_score = (dateCheck r.date today).score +
        (lineCheck r.subtotal r.line_items sub).score + (missCheck r).score) := by
  have hbv := basic_validation_eq r today sub tax tot hs ht hT
  rw [ha] at hbv
  injection hbv with hbv
  subst hbv
  by_cases harith : |sub + tax - tot| ≤ 2 / 100
  · rw [arithCheck_valid r.subtotal r.tax sub tax tot harith]
    refine ⟨by simpa using harith, fun hf => by simp at hf, fun _ => ?_⟩
    constructor
    · simp [List.mem_append]
    · simp
  · rw [arithCheck_invalid r.subtotal r.tax sub tax tot harith]
    refine ⟨by simpa using harith, fun _ => ?_, fun hf => by simp at hf⟩
    constructor
    · simp [List.mem_append]
    · simp

/-- Scenario B of the spec: `45.99 + 3.68` vs a tampered total `99.99`. -/
def scenBRecord : ReceiptRecord :=
  { merchant := some "Walmart".data, date := some "2026-02-07".data,
    currency := some "USD".data,
    subtotal := some (Value.num (mkRat 4599 100)),
    tax := some (Value.num (mkRat 368 100)),
    total := some (Value.num (mkRat 9999 100)) }

/-- The assessment the scorer returns on `scenBRecord` with reference date
2026-02-10. -/
def scenBAssessment : FraudAssessment :=
  { fraud_score := 50, verdict := "Suspicious".data,
    reasons := [Reason.mathError (some (Value.num (mkRat 4599 100)))
      (some (Value.num (mkRat 368 100))) (mkRat 9999 100)],
    arithmetic_valid := false, line_items_valid := true, anomalies_found := [] }

theorem C4_arithmetic_check_witness :
    (scenBAssessment.arithmetic_valid = true ↔
      |mkRat 4599 100 + mkRat 368 100 - mkRat 9999 100| ≤ 2 / 100) ∧
    (scenBAssessment.arithmetic_valid = false →
      Reason.mathError scenBRecord.subtotal scenBRecord.tax (mkRat 9999 100) ∈
        scenBAssessment.reasons ∧
      scenBAssessment.fraud_score = (dateCheck scenBRecord.date ⟨2026, 2, 10⟩).score + 50 +
        (lineCheck scenBRecord.subtotal scenBRecord.line_items (mkRat 4599 100)).score +
        (missCheck scenBRecord).score) ∧
    (scenBAssessment.arithmetic_valid = true →
      Reason.arithmeticPassed ∈ scenBAssessment.reasons ∧
      scenBAssessment.fraud_score = (dateCheck scenBRecord.date ⟨2026, 2, 10⟩).score +
        (lineCheck scenBRecord.subtotal scenBRecord.line_items (mkRat 4599 100)).score +
        (missCheck scenBRecord).score) :=
  C4_arithmetic_check scenBRecord ⟨2026, 2, 10⟩ scenBAssessment
    (mkRat 4599 100) (mkRat 368 100) (mkRat 9999 100) rfl rfl rfl (by decide)

/-- C9.  Fraud-score range: the rule-based score is an integer in `[0, 140]`
(date rule at most 40, arithmetic at most 50, line items at most 30, missing
fields at most 20, each firing at most once). -/
theorem C9_score_range (r : ReceiptRecord) (today : Date) (a : FraudAssessment)
    (ha : basic_validation r today = some a) :
    0 ≤ a.fraud_score ∧ a.fraud_score ≤ 140 := by
  rcases hs : asNum r.subtotal with _ | sub
  · rw [basic_validation, hs] at ha
    simp at ha
  rcases ht : asNum r.tax with _ | tax
  · rw [basic_validation, hs, ht] at ha
    simp at ha
  rcases hT : asNum r.total with _ | tot
  · rw [basic_validation, hs, ht, hT] at ha
    simp at ha
  have hbv := basic_validation_eq r today sub tax tot hs ht hT
  rw [ha] at hbv
  injection hbv with hbv
  subst hbv
  have h1 := dateCheck_score_cases r.date today
  have h2 := arithCheck_score_cases r.subtotal r.tax sub tax tot
  have h3 := lineCheck_score_cases r.subtotal r.line_items sub
  have h4 := missCheck_score_cases r
  simp only
  omega

theorem C9_score_range_witness :
    0 ≤ scenBAssessment.fraud_score ∧ scenBAssessment.fraud_score ≤ 140 :=
  C9_score_range scenBRecord ⟨2026, 2, 10⟩ scenBAssessment (by decide)

/-! ## C5: the required-field presence check -/

/-- Recognizer for the missing-fields anomaly constructor. -/
def isMissingAnomaly : Anomaly → Bool
  | Anomaly.missingFields _ => true
  | _ => false

/-- The claim wording's presence test for a text field: missing only when
absent, empty, or null. -/
def specStrMissing : Option Str → Bool
  | none => true
  | some s => s.isEmpty

/-- The claim wording's presence test for an amount field: missing only when
absent, empty, or null — a present numeric value (zero included) is NOT
missing. -/
def specValMissing : Option Value → Bool
  | none => true
  | some Value.null => true
  | some (Value.str s) => s.isEmpty
  | some (Value.num _) => false

/-- The missing-field list as the claim describes it (absent/empty/null
only), for comparison against the source's truthiness-based
`missingFields`. -/
def specMissingFields (r : ReceiptRecord) : List Str :=
  (if specStrMissing r.merchant then ["merchant".data] else []) ++
  (if specStrMissing r.date then ["date".data] else []) ++
  (if specStrMissing r.currency then ["currency".data] else []) ++
  (if specValMissing r.subtotal then ["subtotal".data] else []) ++
  (if specValMissing r.tax then ["tax".data] else []) ++
  (if specValMissing r.total then ["total".data] else [])

theorem missingFields_nil_iff (r : ReceiptRecord) :
    missingFields r = [] ↔
      (strTruthy r.merchant = true ∧ strTruthy r.date = true ∧
       strTruthy r.currency = true ∧ valTruthy r.subtotal = true ∧
       valTruthy r.tax = true ∧ valTruthy r.total = true) := by
  unfold missingFields
  cases h1 : strTruthy r.merchant <;> cases h2 : strTruthy r.date <;>
    cases h3 : strTruthy r.currency <;> cases h4 : valTruthy r.subtotal <;>
      cases h5 : valTruthy r.tax <;> cases h6 : valTruthy r.total <;> simp

theorem missCheck_of_ne (r : ReceiptRecord) (h : missingFields r ≠ []) :
    missCheck r =
      { anomalies := [Anomaly.missingFields (missingFields r)], score := 20 } := by
  cases hml : missingFields r with
  | nil => exact absurd hml h
  | cons a l => simp [missCheck, hml]

theorem missCheck_of_nil (r : ReceiptRecord) (h : missingFields r = []) :
    missCheck r = {} := by
  simp [missCheck, h]

/-- The date rule never emits the missing-fields anomaly. -/
theorem dateCheck_countP_missing (d : Option Str) (t : Date) :
    (dateCheck d t).anomalies.countP isMissingAnomaly = 0 := by
  unfold dateCheck
  cases hp : pyStrptimeYmd (d.getD []) with
  | none => simp [isMissingAnomaly]
  | some dd => cases hda : dateAfter dd t <;> simp [hda, isMissingAnomaly]

/-- The record exhibiting the divergence: `subtotal` present and equal to
the number `0`, everything else present, non-empty and non-zero. -/
def zeroSubtotalRecord : ReceiptRecord :=
  { merchant := some "Store".data, date := some "2026-02-07".data,
    currency := some "USD".data,
    subtotal := some (Value.num (mkRat 0 1)),
    tax := some (Value.num (mkRat 368 100)),
    total := some (Value.num (mkRat 368 100)) }

/-- The assessment the scorer returns on `zeroSubtotalRecord` with reference
date 2026-02-10. -/
def zeroSubtotalAssessment : FraudAssessment :=
  { fraud_score := 20, verdict := "Likely Legit".data,
    reasons := [Reason.arithmeticPassed],
    arithmetic_valid := true, line_items_valid := true,
    anomalies_found := [Anomaly.missingFields ["subtotal".data]] }

/-- C5 counterexample.  On a record whose `subtotal` is a present numeric
zero (and whose six fields are all present, non-empty and non-null by the
claim's reading, so the claim predicts no missing-field anomaly and no +20),
the code nonetheless reports `subtotal` as missing: the missing-fields
anomaly is appended and the score is raised by 20, because the source tests
Python truthiness (`not receipt_data.get(f)`) and `0` is falsy. -/
theorem C5_missing_zero_counterexample :
    specMissingFields zeroSubtotalRecord = [] ∧
    basic_validation zeroSubtotalRecord ⟨2026, 2, 10⟩ = some zeroSubtotalAssessment ∧
    Anomaly.missingFields ["subtotal".data] ∈ zeroSubtotalAssessment.anomalies_found ∧
    zeroSubtotalAssessment.fraud_score = 20 :=
  ⟨by decide, by decide, by decide, by decide⟩

/-- C5 as amended: a field counts as missing exactly when its value is
Python-falsy (absent, empty, null — or a present numeric zero); when at
least one field is missing, the score is increased by exactly 20 once and a
single anomaly listing all missing field names is appended; when none are
missing neither happens. -/
theorem C5_missing_fields_corrected (r : ReceiptRecord) (today : Date)
    (a : FraudAssessment) (sub tax tot : ℚ)
    (hs : asNum r.subtotal = some sub) (ht : asNum r.tax = some tax)
    (hT : asNum r.total = some tot)
    (ha : basic_validation r today = some a) :
    (missingFields r = [] ↔
      (strTruthy r.merchant = true ∧ strTruthy r.date = true ∧
       strTruthy r.currency = true ∧ valTruthy r.subtotal = true ∧
       valTruthy r.tax = true ∧ valTruthy r.total = true)) ∧
    (missingFields r ≠ [] →
      Anomaly.missingFields (missingFields r) ∈ a.anomalies_found ∧
      a.anomalies_found.countP isMissingAnomaly = 1 ∧
      a.fraud_score = (dateCheck r.date today).score +
        (arithCheck r.subtotal r.tax sub tax tot).score +
        (lineCheck r.subtotal r.line_items sub).score + 20) ∧
    (missingFields r = [] →
      a.anomalies_found.countP isMissingAnomaly = 0 ∧
      a.fraud_score = (dateCheck r.date today).score +
        (arithCheck r.subtotal r.tax sub tax tot).score +
        (lineCheck r.subtotal r.line_items sub).score) := by
  have hbv := basic_validation_eq r today sub tax tot hs ht hT
  rw [ha] at hbv
  injection hbv with hbv
  subst hbv
  refine ⟨missingFields_nil_iff r, fun hne => ?_, fun hnil => ?_⟩
  · rw [missCheck_of_ne r hne]
    refine ⟨by simp [List.mem_append], ?_, by simp⟩
    rw [List.countP_append, dateCheck_countP_missing]
    simp [isMissingAnomaly]
  · rw [missCheck_of_nil r hnil]
    refine ⟨?_, by simp⟩
    simp only [List.append_nil]
    rw [dateCheck_countP_missing]

theorem C5_missing_fields_corrected_witness :
    (missingFields zeroSubtotalRecord = [] ↔
      (strTruthy zeroSubtotalRecord.merchant = true ∧
       strTruthy zeroSubtotalRecord.date = true ∧
       strTruthy zeroSubtotalRecord.currency = true ∧
       valTruthy zeroSubtotalRecord.subtotal = true ∧
       valTruthy zeroSubtotalRecord.tax = true ∧
       valTruthy zeroSubtotalRecord.total = true)) ∧
    (missingFields zeroSubtotalRecord ≠ [] →
      Anomaly.missingFields (missingFields zeroSubtotalRecord) ∈
        zeroSubtotalAssessment.anomalies_found ∧
      zeroSubtotalAssessment.anomalies_found.countP isMissingAnomaly = 1 ∧
      zeroSubtotalAssessment.fraud_score =
        (dateCheck zeroSubtotalRecord.date ⟨2026, 2, 10⟩).score +
        (arithCheck zeroSubtotalRecord.subtotal zeroSubtotalRecord.tax
          (mkRat 0 1) (mkRat 368 100) (mkRat 368 100)).score +
        (lineCheck zeroSubtotalRecord.subtotal zeroSubtotalRecord.line_items
          (mkRat 0 1)).score + 20) ∧
    (missingFields zeroSubtotalRecord = [] →
      zeroSubtotalAssessment.anomalies_found.countP isMissingAnomaly = 0 ∧
      zeroSubtotalAssessment.fraud_score =
        (dateCheck zeroSubtotalRecord.date ⟨2026, 2, 10⟩).score +
        (arithCheck zeroSubtotalRecord.subtotal zeroSubtotalRecord.tax
          (mkRat 0 1) (mkRat 368 100) (mkRat 368 100)).score +
        (lineCheck zeroSubtotalRecord.subtotal zeroSubtotalRecord.line_items
          (mkRat 0 1)).score) :=
  C5_missing_fields_corrected zeroSubtotalRecord ⟨2026, 2, 10⟩
    zeroSubtotalAssessment (mkRat 0 1) (mkRat 368 100) (mkRat 368 100)
    rfl rfl rfl (by decide)

/-! ## C8: case-insensitive hashing -/

/-- Two strings differ only in letter case: equal after lowercasing and
equal after uppercasing. -/
def eqUpToCaseB (s t : Str) : Bool :=
  decide (pyLower s = pyLower t) && decide (pyUpper s = pyUpper t)

/-- `eqUpToCaseB` lifted to optional fields (both absent counts as equal). -/
def optEqUpToCaseB : Option Str → Option Str → Bool
  | none, none => true
  | some s, some t => eqUpToCaseB s t
  | _, _ => false

/-- C8.  Case-insensitive hashing: two records that differ only in the
letter case of merchant and/or currency (all other fields equal) have
identical canonical hashes. -/
theorem C8_case_insensitive_hash (r1 r2 : ReceiptRecord)
    (hm : optEqUpToCaseB r1.merchant r2.merchant = true)
    (hc : optEqUpToCaseB r1.currency r2.currency = true)
    (hd : r1.date = r2.date) (_hti : r1.time = r2.time)
    (hsub : r1.subtotal = r2.subtotal) (htax : r1.tax = r2.tax)
    (htot : r1.total = r2.total) (_hli : r1.line_items = r2.line_items) :
    compute_canonical_hash r1 = compute_canonical_hash r2 := by
  have hm2 : pyLower (r1.merchant.getD []) = pyLower (r2.merchant.getD []) := by
    rcases h1 : r1.merchant with _ | s1
    · rcases h2 : r2.merchant with _ | s2
      · rfl
      · rw [h1, h2] at hm
        simp [optEqUpToCaseB] at hm
    · rcases h2 : r2.merchant with _ | s2
      · rw [h1, h2] at hm
        simp [optEqUpToCaseB] at hm
      · rw [h1, h2] at hm
        simp only [optEqUpToCaseB, eqUpToCaseB, Bool.and_eq_true, decide_eq_true_eq] at hm
        simpa using hm.1
  have hc2 : pyUpper (r1.currency.getD "CAD".data) = pyUpper (r2.currency.getD "CAD".data) := by
    rcases h1 : r1.currency with _ | s1
    · rcases h2 : r2.currency with _ | s2
      · rfl
      · rw [h1, h2] at hc
        simp [optEqUpToCaseB] at hc
    · rcases h2 : r2.currency with _ | s2
      · rw [h1, h2] at hc
        simp [optEqUpToCaseB] at hc
      · rw [h1, h2] at hc
        simp only [optEqUpToCaseB, eqUpToCaseB, Bool.and_eq_true, decide_eq_true_eq] at hc
        simpa using hc.2
  simp only [compute_canonical_hash, hd, hsub, htax, htot, hm2, hc2]

/-- `sampleRecord` with the merchant uppercased and the currency lowercased
(Scenario C of the spec). -/
def caseVariantRecord : ReceiptRecord :=
  { merchant := some "STARBUCKS".data, date := some "2026-02-07".data,
    currency := some "cad".data,
    subtotal := some (Value.num (mkRat 515 100)),
    tax := some (Value.num (mkRat 60 100)),
    total := some (Value.num (mkRat 575 100)) }

theorem C8_case_insensitive_hash_witness :
    compute_canonical_hash sampleRecord = compute_canonical_hash caseVariantRecord :=
  C8_case_insensitive_hash sampleRecord caseVariantRecord
    (by decide) (by decide) rfl rfl rfl rfl rfl rfl

end Receipts
